import Mathlib

/-!
Verification of the natural-language query parser of
`src/natural-language.js` (ServiceNow MCP server).

The JavaScript module is embedded shallowly:

* strings are `List Char` (so that all theorems can be settled by kernel
  evaluation);
* the JavaScript regular expressions used by the module are given an
  executable backtracking engine (`reMatchAll` / `reSearch`) whose
  preference order mirrors the ECMAScript backtracking order (leftmost
  position first, left alternative first, greedy stars take another
  iteration first, lazy stars try the continuation first);
* the pattern table `PATTERNS`, the mapping tables, the stable
  priority sort and the matching loop of `parseNaturalLanguage` are
  transcribed one to one from the source.
-/

set_option maxRecDepth 16384

namespace SNQ

/-- Convert a string literal to the character-list representation used
throughout this development. -/
def str (s : String) : List Char := s.toList

/-- ECMAScript word character, as used by `\b` and `\w`: `[A-Za-z0-9_]`. -/
def isWordChar (c : Char) : Bool := c.isAlpha || c.isDigit || c == '_'

/-- ECMAScript whitespace as relevant to `\s` (ASCII part). -/
def isSpaceJS (c : Char) : Bool :=
  c == ' ' || c == '\t' || c == '\n' || c == '\r' || c == '\x0b' || c == '\x0c'

/-- Syntax of the regular expressions occurring in `natural-language.js`.
`cls` is a single-character class, `star r g` is `r*` (greedy when `g`),
`grp i r` is the `i`-th capturing group, `wb` is `\b`, `eos` is `$`. -/
inductive RE where
  | eps : RE
  | cls : (Char → Bool) → RE
  | seq : RE → RE → RE
  | alt : RE → RE → RE
  | star : RE → Bool → RE
  | grp : Nat → RE → RE
  | wb : RE
  | eos : RE

/-- Captured groups: group index paired with the captured characters. -/
abbrev Caps := List (Nat × List Char)

/-- One partial-match result: the character just before the current
position (for `\b`), the unconsumed input, and the captures so far. -/
structure MRes where
  prev : Option Char
  rest : List Char
  caps : Caps

/-- One level of the matcher: all ways the regex can match a prefix of
`s`, in ECMAScript backtracking preference order (the head of the list
is the match the JavaScript engine returns).  `recur` is invoked for
every star iteration after the first; star iterations that consume
nothing are cut off, as in ECMAScript. -/
def reMatchAux (recur : RE → Option Char → List Char → Caps → List MRes) :
    RE → Option Char → List Char → Caps → List MRes
  | .eps, p, s, cs => [⟨p, s, cs⟩]
  | .cls f, _, s, cs =>
    match s with
    | [] => []
    | c :: rest => if f c then [⟨some c, rest, cs⟩] else []
  | .seq r1 r2, p, s, cs =>
    (reMatchAux recur r1 p s cs).flatMap fun m => reMatchAux recur r2 m.prev m.rest m.caps
  | .alt r1 r2, p, s, cs => reMatchAux recur r1 p s cs ++ reMatchAux recur r2 p s cs
  | .star r g, p, s, cs =>
    let multi := (reMatchAux recur r p s cs).flatMap fun m =>
      if m.rest.length < s.length then recur (.star r g) m.prev m.rest m.caps else []
    if g then multi ++ [⟨p, s, cs⟩] else ⟨p, s, cs⟩ :: multi
  | .grp i r, p, s, cs =>
    (reMatchAux recur r p s cs).map fun m =>
      ⟨m.prev, m.rest, (i, s.take (s.length - m.rest.length)) :: m.caps⟩
  | .wb, p, s, cs =>
    let pw := (p.map isWordChar).getD false
    let nw := (s.head?.map isWordChar).getD false
    if pw != nw then [⟨p, s, cs⟩] else []
  | .eos, p, s, cs => if s.isEmpty then [⟨p, s, cs⟩] else []

/-- The matcher: `fuel` bounds the number of star iterations (every
iteration consumes at least one character, so `s.length + 1` fuel is
always enough; when fuel runs out a star stops iterating). -/
def reMatchAll : Nat → RE → Option Char → List Char → Caps → List MRes
  | 0 => reMatchAux fun _ p s cs => [⟨p, s, cs⟩]
  | fuel + 1 => reMatchAux (reMatchAll fuel)

/-- Try the regex at the current position only; on success return the
matched text (`match[0]`) and the captures of the preferred match. -/
def reMatchHead (re : RE) (prev : Option Char) (s : List Char) :
    Option (List Char × Caps) :=
  match reMatchAll (s.length + 8) re prev s [] with
  | [] => none
  | m :: _ => some (s.take (s.length - m.rest.length), m.caps)

/-- `String.prototype.match` without the global flag: scan positions left
to right, return the first position's preferred match. -/
def reSearch (re : RE) : Option Char → List Char → Option (List Char × Caps)
  | prev, [] => reMatchHead re prev []
  | prev, c :: rest =>
    match reMatchHead re prev (c :: rest) with
    | some r => some r
    | none => reSearch re (some c) rest

/-- `RegExp.prototype.test`. -/
def reTest (re : RE) (s : List Char) : Bool := (reSearch re none s).isSome

/-- Fueled worker for global regex replacement. -/
def reReplaceAllF (re : RE) (repl : List Char) : Nat → Option Char → List Char → List Char
  | 0, _, s => s
  | fuel + 1, prev, s =>
    match reMatchHead re prev s with
    | some (m0, _) =>
      if m0.length == 0 then
        match s with
        | [] => repl
        | c :: rest => repl ++ c :: reReplaceAllF re repl fuel (some c) rest
      else repl ++ reReplaceAllF re repl fuel m0.getLast? (s.drop m0.length)
    | none =>
      match s with
      | [] => []
      | c :: rest => c :: reReplaceAllF re repl fuel (some c) rest

/-- `String.prototype.replace` with a global regex: replace every
non-overlapping leftmost match by `repl`. -/
def reReplaceAll (re : RE) (repl s : List Char) : List Char :=
  reReplaceAllF re repl (s.length + 1) none s

/-- `String.prototype.replace` with a plain string pattern: replace the
first occurrence of `pat` by `repl`. -/
def replaceFirst (pat repl : List Char) : List Char → List Char
  | [] => if pat.isPrefixOf ([] : List Char) then repl else []
  | c :: cs =>
    if pat.isPrefixOf (c :: cs) then repl ++ (c :: cs).drop pat.length
    else c :: replaceFirst pat repl cs

/-- Strip leading JavaScript whitespace. -/
def trimLeftJS : List Char → List Char
  | [] => []
  | c :: cs => if isSpaceJS c then trimLeftJS cs else c :: cs

/-- `String.prototype.trim`. -/
def trimJS (s : List Char) : List Char :=
  (trimLeftJS (trimLeftJS s).reverse).reverse

/-- `String.prototype.toLowerCase` (ASCII, which is all the module uses). -/
def lowerStr (s : List Char) : List Char := s.map Char.toLower

/-- `parseInt` on an all-digit capture. -/
def parseIntJS (s : List Char) : Nat :=
  s.foldl (fun a c => a * 10 + (c.toNat - 48)) 0

/-- Decimal rendering of a number, as JavaScript template literals do. -/
def natToChars (n : Nat) : List Char := Nat.toDigits 10 n

/-! ### Regex notation helpers (building RE values for the source's literals) -/

/-- A single literal character under the `/i` flag. -/
def chr (c : Char) : RE := .cls fun x => x.toLower == c.toLower

/-- A literal word under the `/i` flag. -/
def lit : List Char → RE
  | [] => .eps
  | c :: cs => .seq (chr c) (lit cs)

def lits (s : String) : RE := lit s.toList

/-- Alternation `a|b|...`, associated to the right as ECMAScript does. -/
def alts : List RE → RE
  | [] => .cls fun _ => false
  | [r] => r
  | r :: rs => .alt r (alts rs)

def dgt : RE := .cls Char.isDigit
def wsp : RE := .cls isSpaceJS
/-- `r+` (greedy). -/
def plusG (r : RE) : RE := .seq r (.star r true)
/-- `r+?` (lazy). -/
def plusL (r : RE) : RE := .seq r (.star r false)
/-- `\s+`. -/
def wsp1 : RE := plusG wsp
/-- `\s*`. -/
def wsp0 : RE := .star wsp true
/-- `r?` (greedy). -/
def optG (r : RE) : RE := .alt r .eps
/-- `r{n}`. -/
def rep (r : RE) : Nat → RE
  | 0 => .eps
  | n + 1 => .seq r (rep r n)

/-- `[a-zA-Z\s]`. -/
def alphaWs (c : Char) : Bool := c.isAlpha || isSpaceJS c
/-- `[a-zA-Z0-9\s]`. -/
def alnumWs (c : Char) : Bool := c.isAlpha || c.isDigit || isSpaceJS c
/-- `["']`. -/
def quoteCh (c : Char) : Bool := c == '"' || c.toNat == 39
/-- `[^"']`. -/
def notQuote (c : Char) : Bool := !(quoteCh c)
/-- `[1-5]`. -/
def digit15 (c : Char) : Bool := '1' ≤ c && c ≤ '5'
/-- `[A-Z]` under the `/i` flag (hence any ASCII letter). -/
def upperAlpha (c : Char) : Bool := c.isAlpha
/-- `[a-zA-Z]`. -/
def alphaCh (c : Char) : Bool := c.isAlpha

/-! ### Mapping tables (lines 17-93 of natural-language.js) -/

/-- `STATE_MAPPINGS.incident`. -/
def incidentStates : List (List Char × List Char) := [
  (str "new", str "state=1"),
  (str "in progress", str "state=2"),
  (str "on hold", str "state=3"),
  (str "resolved", str "state=6"),
  (str "closed", str "state=7"),
  (str "canceled", str "state=8"),
  (str "open", str "state=1^ORstate=2^ORstate=3"),
  (str "active", str "active=true")]

/-- `STATE_MAPPINGS.change_request`. -/
def changeRequestStates : List (List Char × List Char) := [
  (str "new", str "state=-5"),
  (str "assess", str "state=-4"),
  (str "authorize", str "state=-3"),
  (str "scheduled", str "state=-2"),
  (str "implement", str "state=-1"),
  (str "review", str "state=0"),
  (str "closed", str "state=3"),
  (str "canceled", str "state=4"),
  (str "open", str "state<0"),
  (str "active", str "active=true")]

/-- `STATE_MAPPINGS.problem`. -/
def problemStates : List (List Char × List Char) := [
  (str "new", str "state=1"),
  (str "assessed", str "state=2"),
  (str "root cause analysis", str "state=3"),
  (str "fix in progress", str "state=4"),
  (str "resolved", str "state=6"),
  (str "closed", str "state=7"),
  (str "open", str "state=1^ORstate=2^ORstate=3^ORstate=4"),
  (str "active", str "active=true")]

/-- `STATE_MAPPINGS.sn_customerservice_case`. -/
def csCaseStates : List (List Char × List Char) := [
  (str "new", str "state=1"),
  (str "open", str "state=10"),
  (str "awaiting info", str "state=18"),
  (str "resolved", str "state=6"),
  (str "closed", str "state=3"),
  (str "canceled", str "state=7"),
  (str "active", str "active=true")]

/-- Table-specific state mappings (`STATE_MAPPINGS`). -/
def STATE_MAPPINGS : List (List Char × List (List Char × List Char)) := [
  (str "incident", incidentStates),
  (str "change_request", changeRequestStates),
  (str "problem", problemStates),
  (str "sn_customerservice_case", csCaseStates)]

/-- `PRIORITY_MAPPINGS`. -/
def PRIORITY_MAPPINGS : List (List Char × List Char) := [
  (str "critical", str "1"), (str "high", str "2"), (str "moderate", str "3"),
  (str "low", str "4"), (str "planning", str "5"),
  (str "p1", str "1"), (str "p2", str "2"), (str "p3", str "3"),
  (str "p4", str "4"), (str "p5", str "5")]

/-- `IMPACT_MAPPINGS`. -/
def IMPACT_MAPPINGS : List (List Char × List Char) := [
  (str "high", str "1"), (str "medium", str "2"), (str "low", str "3")]

/-- `URGENCY_MAPPINGS`. -/
def URGENCY_MAPPINGS : List (List Char × List Char) := [
  (str "high", str "1"), (str "medium", str "2"), (str "low", str "3")]

/-- Rendering of a possibly-undefined value inside a template literal:
JavaScript prints `undefined` for a missing object entry. -/
def jsUndef : Option (List Char) → List Char
  | some v => v
  | none => str "undefined"

/-- Capture access `match[i]` (empty for a non-participating group; the
parsers below only read groups that always participate). -/
def matchCap (caps : Caps) (i : Nat) : List Char :=
  match caps.find? (fun e => e.1 == i) with
  | some e => e.2
  | none => []

/-- The `state` pattern's builder body (lines 218-222): consult the
target table's mapping (`STATE_MAPPINGS[table] || STATE_MAPPINGS.incident`
is the inner `getD`), then the term (`mapping[state] || 'state=' + state`
is the outer `getD`). -/
def stateFragment (table state : List Char) : List Char :=
  (List.lookup state ((List.lookup table STATE_MAPPINGS).getD incidentStates)).getD
    (str "state=" ++ state)

/-- `(created|opened|updated|modified|closed)` (shared by the date rules). -/
def fieldAlts : RE :=
  alts [lits "created", lits "opened", lits "updated", lits "modified", lits "closed"]

/-- The date-field computation shared by the date parsers:
`match[1].toLowerCase() === 'opened' ? 'sys_created_on' : match[1].toLowerCase() + '_on'`. -/
def dateField (w : List Char) : List Char :=
  if w == str "opened" then str "sys_created_on" else w ++ str "_on"

/-- `[a-zA-Z]+\s+\d{1,2}(?:,?\s+\d{4})?` — the date literal of the
before/after rules. -/
def dateLit : RE :=
  .seq (plusG (.cls alphaCh))
    (.seq wsp1
      (.seq dgt
        (.seq (optG dgt)
          (optG (.seq (optG (chr ',')) (.seq wsp1 (rep dgt 4)))))))

/-! ### The pattern table (`PATTERNS`, lines 99-279) -/

/-- One entry of `PATTERNS`: the regex (as an `RE` and as its source
text, which the loop records via `pattern.regex.toString()`), the rule
priority, and the builder `parser(match, table)`; the builder receives
`match[0]`, the captures and the target table. -/
structure Pattern where
  id : List Char
  regex : RE
  priority : Nat
  parser : List Char → Caps → List Char → List Char

/-- The pattern definitions of `natural-language.js`, in source order. -/
def PATTERNS : List Pattern := [
  -- Priority patterns
  { id := str "/\\b(critical|high|moderate|low|planning)\\s+priority\\b/i",
    regex := .seq .wb (.seq
      (.grp 1 (alts [lits "critical", lits "high", lits "moderate", lits "low", lits "planning"]))
      (.seq wsp1 (.seq (lits "priority") .wb))),
    priority := 10,
    parser := fun _ caps _ =>
      str "priority=" ++ jsUndef (List.lookup (lowerStr (matchCap caps 1)) PRIORITY_MAPPINGS) },
  { id := str "/\\bp([1-5])\\b/i",
    regex := .seq .wb (.seq (chr 'p') (.seq (.grp 1 (.cls digit15)) .wb)),
    priority := 10,
    parser := fun _ caps _ => str "priority=" ++ matchCap caps 1 },
  { id := str "/\\bpriority\\s+(critical|high|moderate|low|planning|[1-5])\\b/i",
    regex := .seq .wb (.seq (lits "priority") (.seq wsp1 (.seq
      (.grp 1 (alts [lits "critical", lits "high", lits "moderate", lits "low",
                     lits "planning", .cls digit15])) .wb))),
    priority := 10,
    parser := fun _ caps _ =>
      str "priority=" ++
        ((List.lookup (lowerStr (matchCap caps 1)) PRIORITY_MAPPINGS).getD (matchCap caps 1)) },
  -- Impact patterns
  { id := str "/\\b(high|medium|low)\\s+impact\\b/i",
    regex := .seq .wb (.seq (.grp 1 (alts [lits "high", lits "medium", lits "low"]))
      (.seq wsp1 (.seq (lits "impact") .wb))),
    priority := 9,
    parser := fun _ caps _ =>
      str "impact=" ++ jsUndef (List.lookup (lowerStr (matchCap caps 1)) IMPACT_MAPPINGS) },
  -- Urgency patterns
  { id := str "/\\b(high|medium|low)\\s+urgency\\b/i",
    regex := .seq .wb (.seq (.grp 1 (alts [lits "high", lits "medium", lits "low"]))
      (.seq wsp1 (.seq (lits "urgency") .wb))),
    priority := 9,
    parser := fun _ caps _ =>
      str "urgency=" ++ jsUndef (List.lookup (lowerStr (matchCap caps 1)) URGENCY_MAPPINGS) },
  -- Assignment patterns
  { id := str "/\\b(assigned\\s+to\\s+me|my\\s+(incidents|problems|changes|tickets))\\b/i",
    regex := .seq .wb (.seq (.grp 1 (.alt
      (.seq (lits "assigned") (.seq wsp1 (.seq (lits "to") (.seq wsp1 (lits "me")))))
      (.seq (lits "my") (.seq wsp1 (.grp 2
        (alts [lits "incidents", lits "problems", lits "changes", lits "tickets"])))))) .wb),
    priority := 15,
    parser := fun _ _ _ => str "assigned_to=javascript:gs.getUserID()" },
  { id := str "/\\bunassigned\\b/i",
    regex := .seq .wb (.seq (lits "unassigned") .wb),
    priority := 15,
    parser := fun _ _ _ => str "assigned_toISEMPTY" },
  { id := str "/\\bassigned\\s+to\\s+([a-zA-Z\\s]+?)(?:\\s+(?:and|or|with|created|opened|updated)|\\s*$)/i",
    regex := .seq .wb (.seq (lits "assigned") (.seq wsp1 (.seq (lits "to") (.seq wsp1
      (.seq (.grp 1 (plusL (.cls alphaWs)))
        (.alt (.seq wsp1 (alts [lits "and", lits "or", lits "with",
                                lits "created", lits "opened", lits "updated"]))
              (.seq wsp0 .eos))))))),
    priority := 14,
    parser := fun _ caps _ => str "assigned_to.nameLIKE" ++ trimJS (matchCap caps 1) },
  -- Date patterns - relative
  { id := str "/\\b(created|opened|updated|modified|closed)\\s+(today|yesterday)\\b/i",
    regex := .seq .wb (.seq (.grp 1 fieldAlts) (.seq wsp1
      (.seq (.grp 2 (alts [lits "today", lits "yesterday"])) .wb))),
    priority := 12,
    parser := fun _ caps _ =>
      let field := dateField (lowerStr (matchCap caps 1))
      let days : Nat := if lowerStr (matchCap caps 2) == str "today" then 0 else 1
      field ++ str ">javascript:gs.daysAgoStart(" ++ natToChars days ++ str ")" },
  { id := str "/\\b(created|opened|updated|modified|closed)\\s+(?:in\\s+)?(?:the\\s+)?last\\s+(\\d+)\\s+(days?|weeks?|months?)\\b/i",
    regex := .seq .wb (.seq (.grp 1 fieldAlts) (.seq wsp1 (.seq
      (optG (.seq (lits "in") wsp1)) (.seq (optG (.seq (lits "the") wsp1))
      (.seq (lits "last") (.seq wsp1 (.seq (.grp 2 (plusG dgt)) (.seq wsp1 (.seq
        (.grp 3 (alts [.seq (lits "day") (optG (chr 's')),
                       .seq (lits "week") (optG (chr 's')),
                       .seq (lits "month") (optG (chr 's'))])) .wb))))))))),
    priority := 12,
    parser := fun _ caps _ =>
      let field := dateField (lowerStr (matchCap caps 1))
      let amount := parseIntJS (matchCap caps 2)
      let unit := lowerStr (matchCap caps 3)
      let days : Nat :=
        if (str "week").isPrefixOf unit then amount * 7
        else if (str "month").isPrefixOf unit then amount * 30
        else amount
      field ++ str ">javascript:gs.daysAgo(" ++ natToChars days ++ str ")" },
  { id := str "/\\b(recent|recently\\s+created|new)\\b/i",
    regex := .seq .wb (.seq (.grp 1 (alts [lits "recent",
      .seq (lits "recently") (.seq wsp1 (lits "created")), lits "new"])) .wb),
    priority := 8,
    parser := fun _ _ _ => str "sys_created_on>javascript:gs.daysAgo(7)" },
  { id := str "/\\b(created|opened|updated|modified|closed)\\s+before\\s+([a-zA-Z]+\\s+\\d\x7b1,2\x7d(?:,?\\s+\\d\x7b4\x7d)?)\\b/i",
    regex := .seq .wb (.seq (.grp 1 fieldAlts) (.seq wsp1 (.seq (lits "before")
      (.seq wsp1 (.seq (.grp 2 dateLit) .wb))))),
    priority := 11,
    parser := fun _ caps _ =>
      dateField (lowerStr (matchCap caps 1)) ++ str "<" ++ matchCap caps 2 },
  { id := str "/\\b(created|opened|updated|modified|closed)\\s+after\\s+([a-zA-Z]+\\s+\\d\x7b1,2\x7d(?:,?\\s+\\d\x7b4\x7d)?)\\b/i",
    regex := .seq .wb (.seq (.grp 1 fieldAlts) (.seq wsp1 (.seq (lits "after")
      (.seq wsp1 (.seq (.grp 2 dateLit) .wb))))),
    priority := 11,
    parser := fun _ caps _ =>
      dateField (lowerStr (matchCap caps 1)) ++ str ">" ++ matchCap caps 2 },
  -- State patterns (table-dependent)
  { id := str "/\\b(new|open|active|in\\s+progress|on\\s+hold|resolved|closed|canceled)\\b/i",
    regex := .seq .wb (.seq (.grp 1 (alts [lits "new", lits "open", lits "active",
      .seq (lits "in") (.seq wsp1 (lits "progress")),
      .seq (lits "on") (.seq wsp1 (lits "hold")),
      lits "resolved", lits "closed", lits "canceled"])) .wb),
    priority := 7,
    parser := fun _ caps table => stateFragment table (trimJS (lowerStr (matchCap caps 1))) },
  -- Content search patterns
  { id := str "/\\b(?:about|containing|with|includes?)\\s+[\x22\x27]?([a-zA-Z0-9\\s]+?)[\x22\x27]?(?:\\s+(?:and|or|in|with|created|opened|assigned)|\\s*$)/i",
    regex := .seq .wb (.seq (alts [lits "about", lits "containing", lits "with",
      .seq (lits "include") (optG (chr 's'))]) (.seq wsp1 (.seq (optG (.cls quoteCh))
      (.seq (.grp 1 (plusL (.cls alnumWs))) (.seq (optG (.cls quoteCh))
        (.alt (.seq wsp1 (alts [lits "and", lits "or", lits "in", lits "with",
                                lits "created", lits "opened", lits "assigned"]))
              (.seq wsp0 .eos))))))),
    priority := 5,
    parser := fun _ caps _ =>
      let searchTerm := trimJS (matchCap caps 1)
      str "short_descriptionLIKE" ++ searchTerm ++ str "^ORdescriptionLIKE" ++ searchTerm },
  { id := str "/\\bdescription\\s+(?:contains|includes)\\s+[\x22\x27]?([^\x22\x27]+?)[\x22\x27]?(?:\\s+(?:and|or)|\\s*$)/i",
    regex := .seq .wb (.seq (lits "description") (.seq wsp1 (.seq
      (alts [lits "contains", lits "includes"]) (.seq wsp1 (.seq (optG (.cls quoteCh))
      (.seq (.grp 1 (plusL (.cls notQuote))) (.seq (optG (.cls quoteCh))
        (.alt (.seq wsp1 (alts [lits "and", lits "or"])) (.seq wsp0 .eos))))))))),
    priority := 6,
    parser := fun _ caps _ => str "descriptionLIKE" ++ trimJS (matchCap caps 1) },
  -- Number patterns
  { id := str "/\\bnumber\\s+(?:is|=|equals?)\\s+([A-Z]\x7b3\x7d\\d\x7b7\x7d)\\b/i",
    regex := .seq .wb (.seq (lits "number") (.seq wsp1 (.seq
      (alts [lits "is", chr '=', .seq (lits "equal") (optG (chr 's'))]) (.seq wsp1
      (.seq (.grp 1 (.seq (rep (.cls upperAlpha) 3) (rep dgt 7))) .wb))))),
    priority := 20,
    parser := fun _ caps _ => str "number=" ++ matchCap caps 1 },
  -- Caller patterns
  { id := str "/\\bcaller\\s+(?:is|=)\\s+([a-zA-Z\\s]+?)(?:\\s+(?:and|or|with)|\\s*$)/i",
    regex := .seq .wb (.seq (lits "caller") (.seq wsp1 (.seq (alts [lits "is", chr '='])
      (.seq wsp1 (.seq (.grp 1 (plusL (.cls alphaWs)))
        (.alt (.seq wsp1 (alts [lits "and", lits "or", lits "with"]))
              (.seq wsp0 .eos))))))),
    priority := 10,
    parser := fun _ caps _ => str "caller_id.nameLIKE" ++ trimJS (matchCap caps 1) },
  -- Category patterns
  { id := str "/\\bcategory\\s+(?:is|=)\\s+([a-zA-Z\\s]+?)(?:\\s+(?:and|or|with)|\\s*$)/i",
    regex := .seq .wb (.seq (lits "category") (.seq wsp1 (.seq (alts [lits "is", chr '='])
      (.seq wsp1 (.seq (.grp 1 (plusL (.cls alphaWs)))
        (.alt (.seq wsp1 (alts [lits "and", lits "or", lits "with"]))
              (.seq wsp0 .eos))))))),
    priority := 10,
    parser := fun _ caps _ => str "categoryLIKE" ++ trimJS (matchCap caps 1) },
  -- Assignment group patterns
  { id := str "/\\bassignment\\s+group\\s+(?:is|=)\\s+([a-zA-Z\\s]+?)(?:\\s+(?:and|or|with)|\\s*$)/i",
    regex := .seq .wb (.seq (lits "assignment") (.seq wsp1 (.seq (lits "group")
      (.seq wsp1 (.seq (alts [lits "is", chr '=']) (.seq wsp1
      (.seq (.grp 1 (plusL (.cls alphaWs)))
        (.alt (.seq wsp1 (alts [lits "and", lits "or", lits "with"]))
              (.seq wsp0 .eos))))))))),
    priority := 10,
    parser := fun _ caps _ => str "assignment_group.nameLIKE" ++ trimJS (matchCap caps 1) }]

/-! ### The parse loop (`parseNaturalLanguage`, lines 288-387) -/

/-- Insert while keeping elements of priority `≥ p.priority` in front:
the insertion step of a stable descending sort. -/
def insertDesc (p : Pattern) : List Pattern → List Pattern
  | [] => [p]
  | q :: qs => if q.priority ≤ p.priority then p :: q :: qs else q :: insertDesc p qs

/-- Stable sort by descending priority, modelling
`[...PATTERNS].sort((a, b) => b.priority - a.priority)` (ECMAScript
`Array.prototype.sort` is stable). -/
def sortDesc : List Pattern → List Pattern
  | [] => []
  | p :: ps => insertDesc p (sortDesc ps)

/-- `const sortedPatterns = [...PATTERNS].sort((a, b) => b.priority - a.priority)`. -/
def sortedPatterns : List Pattern := sortDesc PATTERNS

/-- One entry of the `matchedPatterns` output array. -/
structure MatchedPattern where
  pattern : List Char
  matched : List Char
  condition : List Char
deriving DecidableEq

/-- The mutable state of the `for (const pattern of sortedPatterns)` loop:
`remainingQuery`, `conditions` and `matchedPatterns`. -/
structure LoopState where
  remaining : List Char
  conditions : List (List Char)
  matched : List MatchedPattern
deriving DecidableEq

/-- One iteration of the matching loop (lines 308-326): try the rule on
the residual; on a match, record the built condition and replace the
matched span by a single space, then trim. -/
def stepPattern (table : List Char) (st : LoopState) (p : Pattern) : LoopState :=
  match reSearch p.regex none st.remaining with
  | none => st
  | some (m0, caps) =>
    let condition := p.parser m0 caps table
    { remaining := trimJS (replaceFirst m0 (str " ") st.remaining),
      conditions := st.conditions ++ [condition],
      matched := st.matched ++ [{ pattern := p.id, matched := m0, condition := condition }] }

/-- A JavaScript argument value: the parser guards against non-string and
falsy inputs, so the embedding keeps the dynamic type. -/
inductive JSVal where
  | vstr : List Char → JSVal
  | vnum : Int → JSVal
  | vbool : Bool → JSVal
  | vnull : JSVal
  | vundef : JSVal
deriving DecidableEq

/-- JavaScript truthiness of an argument value. -/
def jsTruthy : JSVal → Bool
  | .vstr s => !s.isEmpty
  | .vnum n => n != 0
  | .vbool b => b
  | .vnull => false
  | .vundef => false

/-- `typeof query === 'string'`. -/
def jsIsString : JSVal → Bool
  | .vstr _ => true
  | _ => false

/-- The underlying characters of a string value. -/
def jsStrVal : JSVal → List Char
  | .vstr s => s
  | _ => []

/-- The result object `{ encodedQuery, matchedPatterns, unmatchedText,
suggestions }`; `unmatchedText` is a `JSVal` because the guard path
returns the original (possibly non-string) argument there. -/
structure TranslationResult where
  encodedQuery : List Char
  matchedPatterns : List MatchedPattern
  unmatchedText : JSVal
  suggestions : List (List Char)
deriving DecidableEq

/-- `/\band\b/i`. -/
def andWordRE : RE := .seq .wb (.seq (lits "and") .wb)
/-- `/\bor\b/i`. -/
def orWordRE : RE := .seq .wb (.seq (lits "or") .wb)
/-- `/[=^]/`. -/
def encodedCharRE : RE := .cls fun c => c == '=' || c == '^'
/-- `/\s+/g`. -/
def wsRunRE : RE := plusG wsp
/-- The filler-word regex of the clean-up step (line 342). -/
def fillerRE : RE := .seq .wb (.seq (.grp 1 (alts [lits "show", lits "list",
  lits "find", lits "get", lits "all", lits "cases", lits "incidents",
  lits "problems", lits "changes", lits "tickets", lits "and", lits "or",
  lits "with", lits "in", lits "the", lits "a", lits "an"])) .wb)

/-- The suggestion list of the no-match branch (lines 369-377). -/
def noMatchSuggestions : List (List Char) := [
  str "No patterns matched. Supported patterns:",
  str "- Priority: \x22high priority\x22, \x22P1\x22, \x22priority 2\x22",
  str "- Assignment: \x22assigned to me\x22, \x22unassigned\x22, \x22assigned to John\x22",
  str "- State: \x22new\x22, \x22open\x22, \x22closed\x22, \x22in progress\x22",
  str "- Dates: \x22created today\x22, \x22last 7 days\x22, \x22recent\x22",
  str "- Content: \x22about SAP\x22, \x22containing error\x22",
  str "Or use ServiceNow encoded query format: field=value^field2=value2"]

/-- The run of the matching loop over the sorted patterns. -/
def runPatterns (query table : List Char) : LoopState :=
  sortedPatterns.foldl (stepPattern table) { remaining := query, conditions := [], matched := [] }

/-- The clean-up of the residual text (lines 341-344): strip filler
words, collapse whitespace runs, trim. -/
def cleanupResidual (residual : List Char) : List Char :=
  trimJS (reReplaceAll wsRunRE (str " ") (reReplaceAll fillerRE (str " ") residual))

/-- The unmatched-text suggestions (lines 347-351): produced only when
the cleaned residual is longer than three characters. -/
def residualSuggestions (remainingQuery : List Char) : List (List Char) :=
  if remainingQuery.length > 3 then
    [str "Unrecognized: \x22" ++ remainingQuery ++ str "\x22",
     str "Try using encoded query format: field=value^field2=value2",
     str "Supported patterns: priority (P1-P5), state (new/open/closed), assigned to me/unassigned, recent, dates"]
  else []

/-- The suggestion field of the success branch (line 385):
`suggestions.length > 0 ? suggestions : ['Query parsed successfully']`. -/
def finalSuggestions (remainingQuery : List Char) : List (List Char) :=
  if (residualSuggestions remainingQuery).length > 0 then residualSuggestions remainingQuery
  else [str "Query parsed successfully"]

/-- Result assembly after the matching loop (lines 328-386): pick the
connective from the residual (`hasOr`; the source also computes `hasAnd`
on line 329 but never reads it), join the conditions, and choose among
the passthrough, no-match and success returns.  In the source the joined
`encodedQuery` is computed before the branch but only the success branch
returns it; the two `conditions.length === 0` branches return `''` or
the original query, exactly as written here. -/
def assembleResult (originalQuery : List Char) (st : LoopState) : TranslationResult :=
  if st.conditions.length = 0 then
    if reTest encodedCharRE originalQuery then
      { encodedQuery := originalQuery, matchedPatterns := [], unmatchedText := .vstr [],
        suggestions := [str "Using query as-is (appears to be encoded query format)"] }
    else
      { encodedQuery := [], matchedPatterns := [], unmatchedText := .vstr originalQuery,
        suggestions := noMatchSuggestions }
  else
    { encodedQuery :=
        List.intercalate (if reTest orWordRE st.remaining then str "^OR" else str "^")
          st.conditions,
      matchedPatterns := st.matched,
      unmatchedText := .vstr (cleanupResidual st.remaining),
      suggestions := finalSuggestions (cleanupResidual st.remaining) }

/-- The body of `parseNaturalLanguage` after the input guard
(lines 298-386). -/
def mainParse (query table : List Char) : TranslationResult :=
  assembleResult query (runPatterns query table)

/-- The early return of the input guard (lines 289-296). -/
def guardResult (query : JSVal) : TranslationResult :=
  { encodedQuery := [], matchedPatterns := [], unmatchedText := query,
    suggestions := [str "Please provide a valid query string"] }

/-- `parseNaturalLanguage(query, table)` (lines 288-387). -/
def parseNaturalLanguage (query : JSVal) (table : List Char) : TranslationResult :=
  if !jsTruthy query || !jsIsString query then guardResult query
  else mainParse (jsStrVal query) table

/-! ### Auxiliary definitions for the verification -/

/-- A lower bound on the number of characters any match of `re` consumes. -/
def minLen : RE → Nat
  | .eps => 0
  | .cls _ => 1
  | .seq r1 r2 => minLen r1 + minLen r2
  | .alt r1 r2 => min (minLen r1) (minLen r2)
  | .star _ _ => 0
  | .grp _ r => minLen r
  | .wb => 0
  | .eos => 0

/-- `p` occurs contiguously inside `s`. -/
def isSubseg (p s : List Char) : Prop := ∃ t u, s = t ++ p ++ u

/-- The first entry of `PATTERNS` (used to instantiate per-rule theorems). -/
def pattern0 : Pattern := PATTERNS.get ⟨0, by decide⟩

end SNQ

namespace SNQ

/-! ### Matcher soundness: every match consumes a span of at least `minLen` -/

theorem isSubseg_cons {p s : List Char} (c : Char) (h : isSubseg p s) :
    isSubseg p (c :: s) := by
  obtain ⟨t, u, rfl⟩ := h
  exact ⟨c :: t, u, rfl⟩

theorem isSubseg_length {p s : List Char} (h : isSubseg p s) : p.length ≤ s.length := by
  obtain ⟨t, u, rfl⟩ := h
  simp
  omega

theorem reMatchAux_sound
    (recur : RE → Option Char → List Char → Caps → List MRes)
    (hrec : ∀ r g p s cs, ∀ m ∈ recur (.star r g) p s cs, m.rest <:+ s) :
    ∀ re p s cs, ∀ m ∈ reMatchAux recur re p s cs,
      m.rest <:+ s ∧ m.rest.length + minLen re ≤ s.length := by
  intro re
  induction re with
  | eps =>
    intro p s cs m hm
    simp only [reMatchAux, List.mem_singleton] at hm
    subst hm
    exact ⟨List.suffix_refl s, by simp [minLen]⟩
  | cls f =>
    intro p s cs m hm
    cases s with
    | nil => simp [reMatchAux] at hm
    | cons c rest =>
      simp only [reMatchAux] at hm
      split at hm
      · simp only [List.mem_singleton] at hm
        subst hm
        exact ⟨List.suffix_cons c rest, by simp [minLen]⟩
      · simp at hm
  | seq r1 r2 ih1 ih2 =>
    intro p s cs m hm
    simp only [reMatchAux, List.mem_flatMap] at hm
    obtain ⟨m1, h1, h2⟩ := hm
    obtain ⟨hsuf1, hlen1⟩ := ih1 p s cs m1 h1
    obtain ⟨hsuf2, hlen2⟩ := ih2 m1.prev m1.rest m1.caps m h2
    refine ⟨hsuf2.trans hsuf1, ?_⟩
    simp only [minLen]
    omega
  | alt r1 r2 ih1 ih2 =>
    intro p s cs m hm
    simp only [reMatchAux, List.mem_append] at hm
    rcases hm with hm | hm
    · obtain ⟨hsuf, hlen⟩ := ih1 p s cs m hm
      refine ⟨hsuf, ?_⟩
      simp only [minLen]
      omega
    · obtain ⟨hsuf, hlen⟩ := ih2 p s cs m hm
      refine ⟨hsuf, ?_⟩
      simp only [minLen]
      omega
  | star r g ih =>
    intro p s cs m hm
    simp only [reMatchAux] at hm
    have hid : m = ⟨p, s, cs⟩ → m.rest <:+ s ∧ m.rest.length + minLen (.star r g) ≤ s.length := by
      intro he
      subst he
      exact ⟨List.suffix_refl s, by simp [minLen]⟩
    have hmulti : ∀ m1 ∈ reMatchAux recur r p s cs,
        m ∈ (if m1.rest.length < s.length then recur (.star r g) m1.prev m1.rest m1.caps else []) →
        m.rest <:+ s ∧ m.rest.length + minLen (.star r g) ≤ s.length := by
      intro m1 h1 h2
      split at h2
      · have hsuf2 := hrec r g m1.prev m1.rest m1.caps m h2
        have hsuf1 := (ih p s cs m1 h1).1
        refine ⟨hsuf2.trans hsuf1, ?_⟩
        have := (hsuf2.trans hsuf1).length_le
        simp only [minLen]
        omega
      · simp at h2
    split at hm
    · simp only [List.mem_append, List.mem_flatMap, List.mem_singleton] at hm
      rcases hm with ⟨m1, h1, h2⟩ | hm
      · exact hmulti m1 h1 h2
      · exact hid hm
    · simp only [List.mem_cons, List.mem_flatMap] at hm
      rcases hm with hm | ⟨m1, h1, h2⟩
      · exact hid hm
      · exact hmulti m1 h1 h2
  | grp i r ih =>
    intro p s cs m hm
    simp only [reMatchAux, List.mem_map] at hm
    obtain ⟨m1, h1, rfl⟩ := hm
    obtain ⟨hsuf, hlen⟩ := ih p s cs m1 h1
    exact ⟨hsuf, by simpa [minLen] using hlen⟩
  | wb =>
    intro p s cs m hm
    simp only [reMatchAux] at hm
    split at hm
    · simp only [List.mem_singleton] at hm
      subst hm
      exact ⟨List.suffix_refl s, by simp [minLen]⟩
    · simp at hm
  | eos =>
    intro p s cs m hm
    simp only [reMatchAux] at hm
    split at hm
    · simp only [List.mem_singleton] at hm
      subst hm
      exact ⟨List.suffix_refl s, by simp [minLen]⟩
    · simp at hm

theorem reMatchAll_sound :
    ∀ (fuel : Nat) (re : RE) (p : Option Char) (s : List Char) (cs : Caps),
      ∀ m ∈ reMatchAll fuel re p s cs,
        m.rest <:+ s ∧ m.rest.length + minLen re ≤ s.length := by
  intro fuel
  induction fuel with
  | zero =>
    refine reMatchAux_sound _ ?_
    intro r g p s cs m hm
    simp only [List.mem_singleton] at hm
    subst hm
    exact List.suffix_refl s
  | succ n ih =>
    refine reMatchAux_sound _ ?_
    intro r g p s cs m hm
    exact (ih (.star r g) p s cs m hm).1

theorem reMatchHead_sound {re : RE} {prev : Option Char} {s m0 : List Char} {caps : Caps}
    (h : reMatchHead re prev s = some (m0, caps)) :
    (∃ u, s = m0 ++ u) ∧ minLen re ≤ m0.length := by
  unfold reMatchHead at h
  cases hall : reMatchAll (s.length + 8) re prev s [] with
  | nil => rw [hall] at h; simp at h
  | cons m tail =>
    rw [hall] at h
    simp only [Option.some_inj, Prod.mk.injEq] at h
    obtain ⟨h0, -⟩ := h
    have hmem : m ∈ reMatchAll (s.length + 8) re prev s [] := by
      rw [hall]; exact List.mem_cons_self m tail
    obtain ⟨-, hlen⟩ := reMatchAll_sound _ _ _ _ _ m hmem
    have hk : s.length - m.rest.length ≤ s.length := Nat.sub_le _ _
    constructor
    · exact ⟨s.drop (s.length - m.rest.length), by rw [← h0]; simp⟩
    · rw [← h0]
      simp only [List.length_take]
      omega

theorem reSearch_sound :
    ∀ (s : List Char) (re : RE) (prev : Option Char) (m0 : List Char) (caps : Caps),
      reSearch re prev s = some (m0, caps) → isSubseg m0 s ∧ minLen re ≤ m0.length := by
  intro s
  induction s with
  | nil =>
    intro re prev m0 caps h
    simp only [reSearch] at h
    obtain ⟨⟨u, hu⟩, hmin⟩ := reMatchHead_sound h
    exact ⟨⟨[], u, by simpa using hu⟩, hmin⟩
  | cons c rest ih =>
    intro re prev m0 caps h
    simp only [reSearch] at h
    cases hh : reMatchHead re prev (c :: rest) with
    | some r =>
      rw [hh] at h
      simp only [Option.some_inj] at h
      subst h
      obtain ⟨⟨u, hu⟩, hmin⟩ := reMatchHead_sound hh
      exact ⟨⟨[], u, by simpa using hu⟩, hmin⟩
    | none =>
      rw [hh] at h
      exact (ih re (some c) m0 caps h).imp (isSubseg_cons c) id

/-- An empty input admits no match of a regex that must consume characters. -/
theorem reSearch_empty_none (re : RE) (h1 : 1 ≤ minLen re) (prev : Option Char) :
    reSearch re prev [] = none := by
  cases hh : reSearch re prev [] with
  | none => rfl
  | some r =>
    exfalso
    obtain ⟨m0, caps⟩ := r
    obtain ⟨⟨t, u, he⟩, hmin⟩ := reSearch_sound [] re prev m0 caps hh
    have he' : t ++ m0 ++ u = [] := he.symm
    simp only [List.append_eq_nil] at he'
    rw [he'.1.2] at hmin
    simp only [List.length_nil] at hmin
    omega

/-! ### Length lemmas for the residual update -/

theorem isPrefixOf_iff_append :
    ∀ (p s : List Char), p.isPrefixOf s = true ↔ ∃ t, s = p ++ t := by
  intro p
  induction p with
  | nil =>
    intro s
    simp [List.isPrefixOf]
  | cons a as ih =>
    intro s
    cases s with
    | nil => simp [List.isPrefixOf]
    | cons b bs =>
      simp only [List.isPrefixOf, Bool.and_eq_true, beq_iff_eq, ih bs, List.cons_append,
        List.cons.injEq]
      constructor
      · rintro ⟨rfl, t, rfl⟩
        exact ⟨t, rfl, rfl⟩
      · rintro ⟨t, rfl, rfl⟩
        exact ⟨rfl, t, rfl⟩

theorem replaceFirst_length (pat repl : List Char) :
    ∀ s : List Char, isSubseg pat s → pat ≠ [] →
      (replaceFirst pat repl s).length = s.length - pat.length + repl.length := by
  intro s
  induction s with
  | nil =>
    intro hsub hne
    obtain ⟨t, u, h⟩ := hsub
    have h' : t ++ pat ++ u = [] := h.symm
    simp only [List.append_eq_nil] at h'
    exact absurd h'.1.2 hne
  | cons c cs ih =>
    intro hsub hne
    by_cases hp : pat.isPrefixOf (c :: cs) = true
    · have hlen : pat.length ≤ (c :: cs).length := by
        obtain ⟨t, ht⟩ := (isPrefixOf_iff_append pat (c :: cs)).mp hp
        rw [ht]
        simp
      simp only [replaceFirst, hp, if_true]
      simp only [List.length_append, List.length_drop]
      omega
    · obtain ⟨t, u, h⟩ := hsub
      cases t with
      | nil =>
        exfalso
        apply hp
        exact (isPrefixOf_iff_append pat (c :: cs)).mpr ⟨u, by simpa using h⟩
      | cons a t' =>
        simp only [List.cons_append, List.cons.injEq] at h
        obtain ⟨rfl, h2⟩ := h
        have hsub' : isSubseg pat cs := ⟨t', u, h2⟩
        have hplen : pat.length ≤ cs.length := isSubseg_length hsub'
        simp only [replaceFirst, hp, if_false, Bool.false_eq_true]
        simp only [List.length_cons, ih hsub' hne]
        omega

theorem trimLeftJS_length_le : ∀ s : List Char, (trimLeftJS s).length ≤ s.length := by
  intro s
  induction s with
  | nil => simp [trimLeftJS]
  | cons c cs ih =>
    simp only [trimLeftJS]
    split
    · simp only [List.length_cons]
      omega
    · simp

theorem trimJS_length_le (s : List Char) : (trimJS s).length ≤ s.length := by
  unfold trimJS
  have h1 := trimLeftJS_length_le s
  have h2 := trimLeftJS_length_le (trimLeftJS s).reverse
  simp only [List.length_reverse] at *
  omega

/-! ### Properties of one loop iteration -/

/-- Every registered pattern must consume at least two characters. -/
theorem patterns_minLen2 : ∀ p ∈ PATTERNS, 2 ≤ minLen p.regex := by decide

/-- Case analysis of one loop iteration. -/
theorem stepPattern_cases (table : List Char) (st : LoopState) (p : Pattern) :
    (reSearch p.regex none st.remaining = none ∧ stepPattern table st p = st) ∨
    ∃ m0 caps, reSearch p.regex none st.remaining = some (m0, caps) ∧
      stepPattern table st p =
        { remaining := trimJS (replaceFirst m0 (str " ") st.remaining),
          conditions := st.conditions ++ [p.parser m0 caps table],
          matched := st.matched ++
            [{ pattern := p.id, matched := m0, condition := p.parser m0 caps table }] } := by
  cases hh : reSearch p.regex none st.remaining with
  | none =>
    left
    exact ⟨rfl, by simp [stepPattern, hh]⟩
  | some r =>
    right
    obtain ⟨m0, caps⟩ := r
    exact ⟨m0, caps, rfl, by simp [stepPattern, hh]⟩

/-- A successful rule application strictly shrinks the residual; a failed
one leaves it unchanged. -/
theorem stepPattern_shrinks (table : List Char) (st : LoopState) (p : Pattern)
    (h2 : 2 ≤ minLen p.regex) :
    (stepPattern table st p).remaining.length ≤ st.remaining.length ∧
    ((reSearch p.regex none st.remaining).isSome = true →
      (stepPattern table st p).remaining.length < st.remaining.length) := by
  rcases stepPattern_cases table st p with ⟨hn, he⟩ | ⟨m0, caps, hs, he⟩
  · rw [he]
    exact ⟨Nat.le_refl _, by rw [hn]; simp⟩
  · obtain ⟨hsub, hmin⟩ := reSearch_sound st.remaining p.regex none m0 caps hs
    have hm2 : 2 ≤ m0.length := le_trans h2 hmin
    have hne : m0 ≠ [] := by
      intro h0
      rw [h0] at hm2
      simp at hm2
    have hlen := isSubseg_length hsub
    have hrl := replaceFirst_length m0 (str " ") st.remaining hsub hne
    have htr := trimJS_length_le (replaceFirst m0 (str " ") st.remaining)
    have hone : (str " ").length = 1 := rfl
    rw [he]
    simp only
    constructor
    · omega
    · intro _
      omega

/-! ### Loop invariants -/

theorem foldl_conditions_eq (table : List Char) :
    ∀ (ps : List Pattern) (st : LoopState),
      st.conditions = st.matched.map MatchedPattern.condition →
      (ps.foldl (stepPattern table) st).conditions =
        (ps.foldl (stepPattern table) st).matched.map MatchedPattern.condition := by
  intro ps
  induction ps with
  | nil => intro st h; simpa using h
  | cons p ps ih =>
    intro st h
    simp only [List.foldl_cons]
    apply ih
    rcases stepPattern_cases table st p with ⟨-, he⟩ | ⟨m0, caps, -, he⟩ <;> rw [he] <;> simp [h]

theorem foldl_matched_ids (table : List Char) :
    ∀ (ps : List Pattern) (st : LoopState),
      ∃ u, (ps.foldl (stepPattern table) st).matched.map MatchedPattern.pattern =
             st.matched.map MatchedPattern.pattern ++ u ∧ u.Sublist (ps.map Pattern.id) := by
  intro ps
  induction ps with
  | nil => intro st; exact ⟨[], by simp, by simp⟩
  | cons p ps ih =>
    intro st
    simp only [List.foldl_cons, List.map_cons]
    rcases stepPattern_cases table st p with ⟨-, he⟩ | ⟨m0, caps, -, he⟩
    · rw [he]
      obtain ⟨u, hu, hsub⟩ := ih st
      exact ⟨u, hu, hsub.cons p.id⟩
    · rw [he]
      obtain ⟨u, hu, hsub⟩ := ih _
      refine ⟨p.id :: u, ?_, hsub.cons₂ p.id⟩
      rw [hu]
      simp

theorem foldl_noMatch (table : List Char) :
    ∀ (ps : List Pattern) (st : LoopState),
      (∀ p ∈ ps, reSearch p.regex none st.remaining = none) →
      ps.foldl (stepPattern table) st = st := by
  intro ps
  induction ps with
  | nil => intro st _; rfl
  | cons p ps ih =>
    intro st h
    have h0 : stepPattern table st p = st := by
      simp [stepPattern, h p (List.mem_cons_self p ps)]
    simp only [List.foldl_cons, h0]
    exact ih st fun q hq => h q (List.mem_cons_of_mem p hq)

theorem mem_insertDesc (p q : Pattern) :
    ∀ l : List Pattern, q ∈ insertDesc p l ↔ q = p ∨ q ∈ l := by
  intro l
  induction l with
  | nil => simp [insertDesc]
  | cons b bs ih =>
    simp only [insertDesc]
    split
    · simp [List.mem_cons]
    · simp only [List.mem_cons, ih]
      tauto

theorem mem_sortDesc (q : Pattern) : ∀ l : List Pattern, q ∈ sortDesc l ↔ q ∈ l := by
  intro l
  induction l with
  | nil => simp [sortDesc]
  | cons p ps ih => simp [sortDesc, mem_insertDesc, ih]

theorem mem_sortedPatterns {p : Pattern} (h : p ∈ sortedPatterns) : p ∈ PATTERNS :=
  (mem_sortDesc p PATTERNS).mp h

/-- The regex source texts of the sorted pattern list are pairwise distinct. -/
theorem sortedIds_nodup : (sortedPatterns.map Pattern.id).Nodup := by decide

/-- On the empty string no rule fires, so the loop is the identity. -/
theorem runPatterns_empty (t : List Char) :
    runPatterns [] t = { remaining := [], conditions := [], matched := [] } := by
  apply foldl_noMatch
  intro p hp
  exact reSearch_empty_none p.regex
    (le_trans (by omega) (patterns_minLen2 p (mem_sortedPatterns hp))) none

/-! ### Branch characterization of parseNaturalLanguage -/

theorem parseNaturalLanguage_vstr (q t : List Char) (hq : q ≠ []) :
    parseNaturalLanguage (.vstr q) t = mainParse q t := by
  cases q with
  | nil => exact absurd rfl hq
  | cons a as =>
    unfold parseNaturalLanguage
    rw [if_neg (by simp [jsTruthy, jsIsString])]
    simp only [jsStrVal]

theorem assembleResult_conds_ne (oq : List Char) (st : LoopState) (h : st.conditions ≠ []) :
    assembleResult oq st =
      { encodedQuery :=
          List.intercalate (if reTest orWordRE st.remaining then str "^OR" else str "^")
            st.conditions,
        matchedPatterns := st.matched,
        unmatchedText := .vstr (cleanupResidual st.remaining),
        suggestions := finalSuggestions (cleanupResidual st.remaining) } := by
  unfold assembleResult
  rw [if_neg (by simpa [List.length_eq_zero] using h)]

theorem mainParse_main_fields (q t : List Char) (h : (runPatterns q t).conditions ≠ []) :
    (mainParse q t).encodedQuery =
      List.intercalate
        (if reTest orWordRE (runPatterns q t).remaining then str "^OR" else str "^")
        (runPatterns q t).conditions ∧
    (mainParse q t).matchedPatterns = (runPatterns q t).matched := by
  unfold mainParse
  rw [assembleResult_conds_ne q (runPatterns q t) h]
  constructor <;> simp only []

theorem mainParse_passthrough (q t : List Char) (h : (runPatterns q t).conditions = [])
    (henc : reTest encodedCharRE q = true) :
    mainParse q t =
      { encodedQuery := q, matchedPatterns := [], unmatchedText := .vstr [],
        suggestions := [str "Using query as-is (appears to be encoded query format)"] } := by
  unfold mainParse assembleResult
  rw [if_pos (by rw [h]; rfl), if_pos henc]

theorem assembleResult_suggestions_ne (oq : List Char) (st : LoopState) :
    (assembleResult oq st).suggestions ≠ [] := by
  unfold assembleResult
  split
  · split
    · simp
    · simp [noMatchSuggestions]
  · unfold finalSuggestions
    simp only
    split
    · exact List.ne_nil_of_length_pos ‹_›
    · simp

theorem parse_matched_cases (q t : List Char) :
    (parseNaturalLanguage (.vstr q) t).matchedPatterns = [] ∨
    (parseNaturalLanguage (.vstr q) t).matchedPatterns = (runPatterns q t).matched := by
  by_cases hq : q = []
  · left
    subst hq
    unfold parseNaturalLanguage
    rw [if_pos (by decide)]
    simp [guardResult]
  · rw [parseNaturalLanguage_vstr q t hq]
    unfold mainParse assembleResult
    split
    · split <;> simp
    · right
      simp only []

theorem parse_matched_sublist (q t : List Char) :
    ((parseNaturalLanguage (.vstr q) t).matchedPatterns.map MatchedPattern.pattern).Sublist
      (sortedPatterns.map Pattern.id) := by
  rcases parse_matched_cases q t with h | h <;> rw [h]
  · simp
  · obtain ⟨u, hu, hsub⟩ := foldl_matched_ids t sortedPatterns
      { remaining := q, conditions := [], matched := [] }
    have hru : (runPatterns q t).matched.map MatchedPattern.pattern = u := by
      rw [show (runPatterns q t).matched =
        (sortedPatterns.foldl (stepPattern t)
          { remaining := q, conditions := [], matched := [] }).matched from rfl, hu]
      simp
    rw [hru]
    exact hsub

theorem nodup_count_le_one {l : List (List Char)} (h : l.Nodup) (a : List Char) :
    l.count a ≤ 1 := by
  induction l with
  | nil => simp
  | cons b bs ih =>
    rw [List.count_cons]
    rcases List.nodup_cons.mp h with ⟨hb, hbs⟩
    by_cases hab : b = a
    · subst hab
      have h0 : bs.count b = 0 := List.count_eq_zero.mpr hb
      simp [h0]
    · simp only [beq_iff_eq, hab, if_false]
      have := ih hbs
      omega

theorem parse_matched_count_le_one (q t pid : List Char) :
    ((parseNaturalLanguage (.vstr q) t).matchedPatterns.map MatchedPattern.pattern).count pid ≤ 1 :=
  le_trans ((parse_matched_sublist q t).count_le pid)
    (nodup_count_le_one sortedIds_nodup pid)

theorem parse_main_fields (q t : List Char) (h : (runPatterns q t).conditions ≠ []) :
    (parseNaturalLanguage (.vstr q) t).encodedQuery =
      List.intercalate
        (if reTest orWordRE (runPatterns q t).remaining then str "^OR" else str "^")
        (runPatterns q t).conditions ∧
    (parseNaturalLanguage (.vstr q) t).matchedPatterns = (runPatterns q t).matched := by
  have hq : q ≠ [] := by
    intro h0
    subst h0
    rw [runPatterns_empty t] at h
    exact h rfl
  rw [parseNaturalLanguage_vstr q t hq]
  exact mainParse_main_fields q t h

theorem mainParse_suggestions_ne (q t : List Char) : (mainParse q t).suggestions ≠ [] := by
  unfold mainParse
  exact assembleResult_suggestions_ne q (runPatterns q t)

theorem pattern0_mem : pattern0 ∈ PATTERNS := List.get_mem PATTERNS 0 (by decide)

theorem runPatterns_conditions_eq (q t : List Char) :
    (runPatterns q t).conditions = (runPatterns q t).matched.map MatchedPattern.condition := by
  unfold runPatterns
  exact foldl_conditions_eq t sortedPatterns
    { remaining := q, conditions := [], matched := [] } rfl

/-! ### The claims -/

/-- C1: fragments are assembled in rule-priority order, not textual
order.  Concretely, `parseNaturalLanguage("high priority and assigned to
me", "incident")` emits the assignment fragment (priority 15) before the
priority fragment (priority 10); in general the recorded matches are a
subsequence of the priority-sorted rule list (so fragments appear in
evaluation order), and the emitted query is exactly the join of the
matched fragments in that order. -/
theorem C1_priority_order :
    (parseNaturalLanguage (.vstr (str "high priority and assigned to me"))
        (str "incident")).encodedQuery =
      str "assigned_to=javascript:gs.getUserID()^priority=2" ∧
    (∀ q t : List Char,
      ((parseNaturalLanguage (.vstr q) t).matchedPatterns.map MatchedPattern.pattern).Sublist
        (sortedPatterns.map Pattern.id)) ∧
    (∀ q t : List Char, (runPatterns q t).conditions ≠ [] →
      (parseNaturalLanguage (.vstr q) t).encodedQuery =
        List.intercalate
          (if reTest orWordRE (runPatterns q t).remaining then str "^OR" else str "^")
          ((parseNaturalLanguage (.vstr q) t).matchedPatterns.map MatchedPattern.condition)) := by
  refine ⟨by decide, parse_matched_sublist, ?_⟩
  intro q t h
  obtain ⟨henc, hmat⟩ := parse_main_fields q t h
  rw [henc, hmat, runPatterns_conditions_eq q t]

/-- Witness for C1's general part, instantiated at `"open"`. -/
theorem C1_priority_order_witness :
    (runPatterns (str "open") (str "incident")).conditions ≠ [] ∧
    (parseNaturalLanguage (.vstr (str "open")) (str "incident")).encodedQuery =
      List.intercalate
        (if reTest orWordRE (runPatterns (str "open") (str "incident")).remaining then str "^OR"
         else str "^")
        ((parseNaturalLanguage (.vstr (str "open")) (str "incident")).matchedPatterns.map
          MatchedPattern.condition) :=
  ⟨by decide, C1_priority_order.2.2 (str "open") (str "incident") (by decide)⟩

/-- C2: state terms are mapped per target collection: `"open"` yields
`state=1^ORstate=2^ORstate=3` for incident and `state<0` for
change_request. -/
theorem C2_state_mapping_per_table :
    (parseNaturalLanguage (.vstr (str "open")) (str "incident")).encodedQuery =
      str "state=1^ORstate=2^ORstate=3" ∧
    (parseNaturalLanguage (.vstr (str "open")) (str "change_request")).encodedQuery =
      str "state<0" := by
  constructor <;> decide

/-- C3: idempotent passthrough of already-encoded input: if a query
contains `=` or `^` and no rule matches it, the parser returns it
verbatim as the encoded query, for every table. -/
theorem C3_encoded_passthrough (s t : List Char)
    (hnomatch : ∀ p ∈ PATTERNS, reSearch p.regex none s = none)
    (henc : reTest encodedCharRE s = true) :
    (parseNaturalLanguage (.vstr s) t).encodedQuery = s := by
  have hs : runPatterns s t = { remaining := s, conditions := [], matched := [] } := by
    apply foldl_noMatch
    intro p hp
    exact hnomatch p (mem_sortedPatterns hp)
  have hq : s ≠ [] := by
    intro h0
    subst h0
    exact Bool.false_ne_true ((show reTest encodedCharRE [] = false from rfl) ▸ henc)
  rw [parseNaturalLanguage_vstr s t hq, mainParse_passthrough s t (by rw [hs]) henc]

/-- Witness for C3 at the already-encoded input `"state=1"`. -/
theorem C3_encoded_passthrough_witness :
    (∀ p ∈ PATTERNS, reSearch p.regex none (str "state=1") = none) ∧
    reTest encodedCharRE (str "state=1") = true ∧
    (parseNaturalLanguage (.vstr (str "state=1")) (str "incident")).encodedQuery =
      str "state=1" :=
  ⟨by decide, by decide,
   C3_encoded_passthrough (str "state=1") (str "incident") (by decide) (by decide)⟩

/-- C4: at most one application per rule per call: every rule occurs at
most once among the recorded matches, and `"P1 or P2 incidents"` yields
only `priority=1`, the second mention `P2` remaining in the returned
unmatched text. -/
theorem C4_single_application :
    (∀ q t pid : List Char,
      ((parseNaturalLanguage (.vstr q) t).matchedPatterns.map MatchedPattern.pattern).count pid
        ≤ 1) ∧
    parseNaturalLanguage (.vstr (str "P1 or P2 incidents")) (str "incident") =
      { encodedQuery := str "priority=1",
        matchedPatterns := [{ pattern := str "/\\bp([1-5])\\b/i", matched := str "P1",
                              condition := str "priority=1" }],
        unmatchedText := .vstr (str "P2"),
        suggestions := [str "Query parsed successfully"] } :=
  ⟨parse_matched_count_le_one, by decide⟩

/-- C5 counterexample: an input containing both standalone `and` and
standalone `or` whose two fragments are nevertheless joined by `^` and
not `^OR` — the `or` span is consumed by the assigned-to rule, so the
`hasOr` test on the residual fails.  This refutes the claim that such
inputs always use the `^OR` connective. -/
theorem C5_connective_counterexample :
    reTest andWordRE (str "assigned to bob or alice and created today") = true ∧
    reTest orWordRE (str "assigned to bob or alice and created today") = true ∧
    2 ≤ (parseNaturalLanguage (.vstr (str "assigned to bob or alice and created today"))
        (str "incident")).matchedPatterns.length ∧
    (parseNaturalLanguage (.vstr (str "assigned to bob or alice and created today"))
        (str "incident")).encodedQuery =
      str "assigned_to.nameLIKEbob^created_on>javascript:gs.daysAgoStart(0)" ∧
    (parseNaturalLanguage (.vstr (str "assigned to bob or alice and created today"))
        (str "incident")).encodedQuery ≠
      List.intercalate (str "^OR")
        ((parseNaturalLanguage (.vstr (str "assigned to bob or alice and created today"))
          (str "incident")).matchedPatterns.map MatchedPattern.condition) := by
  refine ⟨by decide, by decide, by decide, by decide, by decide⟩

/-- C5 (amended): whenever two or more fragments are emitted they are
all joined by one single connective, chosen by testing the residual text
left after pattern consumption for a standalone `or`: `^OR` if present,
`^` otherwise.  (An `or` of the raw input that was consumed by a match
does not count, as the counterexample shows.) -/
theorem C5_connective_uniformity (q t : List Char)
    (h : 2 ≤ (runPatterns q t).conditions.length) :
    (parseNaturalLanguage (.vstr q) t).encodedQuery =
      List.intercalate
        (if reTest orWordRE (runPatterns q t).remaining then str "^OR" else str "^")
        (runPatterns q t).conditions := by
  have hne : (runPatterns q t).conditions ≠ [] := by
    intro h0
    rw [h0] at h
    simp at h
  exact (parse_main_fields q t hne).1

/-- Witness for the amended C5 at a two-fragment input. -/
theorem C5_connective_uniformity_witness :
    2 ≤ (runPatterns (str "high priority and assigned to me") (str "incident")).conditions.length ∧
    (parseNaturalLanguage (.vstr (str "high priority and assigned to me"))
        (str "incident")).encodedQuery =
      List.intercalate
        (if reTest orWordRE
            (runPatterns (str "high priority and assigned to me") (str "incident")).remaining
         then str "^OR" else str "^")
        (runPatterns (str "high priority and assigned to me") (str "incident")).conditions :=
  ⟨by decide,
   C5_connective_uniformity (str "high priority and assigned to me") (str "incident") (by decide)⟩

/-- C6: the contract is total: for every argument value and table the
function returns a TranslationResult (the embedding is a total function;
no parser can raise), and the empty-string input returns an empty
encoded query with at least one suggestion. -/
theorem C6_total_contract :
    (∀ (v : JSVal) (t : List Char), ∃ r : TranslationResult, parseNaturalLanguage v t = r) ∧
    (parseNaturalLanguage (.vstr (str "")) (str "incident")).encodedQuery = str "" ∧
    1 ≤ (parseNaturalLanguage (.vstr (str "")) (str "incident")).suggestions.length :=
  ⟨fun v t => ⟨parseNaturalLanguage v t, rfl⟩, by decide, by decide⟩

/-- C7: the residual monotonically shrinks: one loop iteration never
lengthens the residual, and a successful rule application strictly
shortens it (every registered pattern consumes at least two characters,
which are replaced by a single space before trimming). -/
theorem C7_residual_shrinks :
    ∀ p ∈ PATTERNS, ∀ (table : List Char) (st : LoopState),
      (stepPattern table st p).remaining.length ≤ st.remaining.length ∧
      ((reSearch p.regex none st.remaining).isSome = true →
        (stepPattern table st p).remaining.length < st.remaining.length) :=
  fun p hp table st => stepPattern_shrinks table st p (patterns_minLen2 p hp)

/-- Witness for C7: the first pattern on a matching residual. -/
theorem C7_residual_shrinks_witness :
    (reSearch pattern0.regex none (str "critical priority")).isSome = true ∧
    (stepPattern (str "incident")
        { remaining := str "critical priority", conditions := [], matched := [] }
        pattern0).remaining.length < (str "critical priority").length :=
  ⟨by decide,
   (C7_residual_shrinks pattern0 pattern0_mem (str "incident")
     { remaining := str "critical priority", conditions := [], matched := [] }).2 (by decide)⟩

/-- C8: the state rule's semantic-mapping fallback is total: a mapped
term of a mapped collection yields that entry; an unmapped collection
falls back to the default (incident) mapping without error; a term
missing even there degrades to the literal `state=<term>`. -/
theorem C8_state_fallback :
    (∀ (tbl term : List Char) (m : List (List Char × List Char)) (e : List Char),
      List.lookup tbl STATE_MAPPINGS = some m → List.lookup term m = some e →
      stateFragment tbl term = e) ∧
    (∀ tbl term : List Char, List.lookup tbl STATE_MAPPINGS = none →
      stateFragment tbl term = stateFragment (str "incident") term) ∧
    (∀ tbl term : List Char,
      List.lookup term ((List.lookup tbl STATE_MAPPINGS).getD incidentStates) = none →
      stateFragment tbl term = str "state=" ++ term) := by
  refine ⟨?_, ?_, ?_⟩
  · intro tbl term m e hm he
    unfold stateFragment
    rw [hm]
    simp [he]
  · intro tbl term hm
    unfold stateFragment
    rw [hm]
    rw [show List.lookup (str "incident") STATE_MAPPINGS = some incidentStates from by decide]
    rfl
  · intro tbl term he
    unfold stateFragment
    rw [he]
    rfl

/-- Witness for C8: mapped, collection-fallback, and term-fallback cases. -/
theorem C8_state_fallback_witness :
    stateFragment (str "incident") (str "open") = str "state=1^ORstate=2^ORstate=3" ∧
    stateFragment (str "cmdb_ci") (str "open") = stateFragment (str "incident") (str "open") ∧
    stateFragment (str "incident") (str "weird") = str "state=" ++ str "weird" :=
  ⟨C8_state_fallback.1 (str "incident") (str "open") incidentStates
      (str "state=1^ORstate=2^ORstate=3") (by decide) (by decide),
   C8_state_fallback.2.1 (str "cmdb_ci") (str "open") (by decide),
   C8_state_fallback.2.2 (str "incident") (str "weird") (by decide)⟩

/-- C9: the suggestions array is never empty, on every code path. -/
theorem C9_suggestions_nonempty (v : JSVal) (t : List Char) :
    (parseNaturalLanguage v t).suggestions ≠ [] := by
  unfold parseNaturalLanguage
  split
  · simp [guardResult]
  · exact mainParse_suggestions_ne _ _

/-- C10: the input guard returns the original (possibly non-string)
argument as `unmatchedText`, an empty encoded query and no matches. -/
theorem C10_guard_result (v : JSVal) (t : List Char)
    (h : (!jsTruthy v || !jsIsString v) = true) :
    parseNaturalLanguage v t =
      { encodedQuery := [], matchedPatterns := [], unmatchedText := v,
        suggestions := [str "Please provide a valid query string"] } := by
  unfold parseNaturalLanguage
  rw [if_pos h]
  rfl

/-- Witness for C10 at the non-string input `null`. -/
theorem C10_guard_result_witness :
    (!jsTruthy JSVal.vnull || !jsIsString JSVal.vnull) = true ∧
    parseNaturalLanguage JSVal.vnull (str "incident") =
      { encodedQuery := [], matchedPatterns := [], unmatchedText := JSVal.vnull,
        suggestions := [str "Please provide a valid query string"] } :=
  ⟨by decide, C10_guard_result JSVal.vnull (str "incident") (by decide)⟩

end SNQ

